import Mathlib

/-!
Verification development for the OpenGL rendering core of gtk-gl-shaders.

The Rust code drives OpenGL through side effects.  We model it with a shallow
embedding: every GL or logging side effect becomes an element of a trace
(`List GLCall`), and each Rust function becomes a pure Lean function returning
its result together with the trace it emits.  The GPU driver is abstracted by
a `Driver` record: which shader sources compile, whether the link succeeds,
the uniform-location table of the linked program, and which texture sources
decode.  32-bit floats are modelled exactly as rationals; every float literal
appearing in the code (0.0, 1.0, 2.0) is exactly representable, and float
values are only passed through, never computed with.
-/

namespace GtkGlShaders

/-- Uniform value variants, from `enum Uniform` in src/shader_area/mod.rs and
the identical `enum UniformValue` in src/shaderarea/mod.rs. -/
inductive Uniform where
  | Float (v : Rat)
  | Vec2 (a b : Rat)
  | Vec3 (a b c : Rat)
  | Vec4 (a b c d : Rat)
  | Int (v : Int)
  | IVec2 (a b : Int)
  | IVec3 (a b c : Int)
  | IVec4 (a b c d : Int)
deriving DecidableEq

/-- One observable side effect: a GL API call, a redraw request, or a log
line.  Mirrors the epoxy calls made by src/shader_area/imp.rs and
src/shaderarea/mod.rs. -/
inductive GLCall where
  | CreateShader (id : Nat)
  | ShaderSourceCall (id : Nat) (src : String)
  | CompileShaderCall (id : Nat)
  | CreateProgram (id : Nat)
  | AttachShader (program shader : Nat)
  | LinkProgramCall (program : Nat)
  | DeleteShader (id : Nat)
  | DeleteProgram (id : Nat)
  | GenVertexArrays (id : Nat)
  | BindVertexArray (id : Nat)
  | DeleteVertexArrays (id : Nat)
  | GenTexture (id : Nat)
  | ActiveTexture (unit : Nat)
  | BindTexture (id : Nat)
  | TexParameter (pname value : Nat)
  | TexImage2D
  | DeleteTextures (ids : List Nat)
  | UseProgram (id : Nat)
  | Uniform1i (loc : Int) (v : Int)
  | Uniform2i (loc : Int) (a b : Int)
  | Uniform3i (loc : Int) (a b c : Int)
  | Uniform4i (loc : Int) (a b c d : Int)
  | Uniform1f (loc : Int) (v : Rat)
  | Uniform2f (loc : Int) (a b : Rat)
  | Uniform3f (loc : Int) (a b c : Rat)
  | Uniform4f (loc : Int) (a b c d : Rat)
  | ClearColor (r g b a : Rat)
  | Clear (mask : Nat)
  | DrawArrays (mode first count : Nat)
  | Flush
  | QueueRender
  | LogWarn (msg : String)
  | LogError (msg : String)
deriving DecidableEq

/-- GL enumerant GL_TEXTURE0. -/
def TEXTURE0 : Nat := 33984

/-- GL enumerant GL_TEXTURE_MIN_FILTER. -/
def TEXTURE_MIN_FILTER : Nat := 10241

/-- GL enumerant GL_TEXTURE_MAG_FILTER. -/
def TEXTURE_MAG_FILTER : Nat := 10240

/-- GL enumerant GL_TEXTURE_WRAP_S. -/
def TEXTURE_WRAP_S : Nat := 10242

/-- GL enumerant GL_TEXTURE_WRAP_T. -/
def TEXTURE_WRAP_T : Nat := 10243

/-- GL enumerant GL_LINEAR. -/
def LINEAR : Nat := 9729

/-- GL enumerant GL_CLAMP_TO_EDGE. -/
def CLAMP_TO_EDGE : Nat := 33071

/-- GL enumerant GL_TRIANGLE_STRIP. -/
def TRIANGLE_STRIP : Nat := 5

/-- GL enumerant GL_COLOR_BUFFER_BIT. -/
def COLOR_BUFFER_BIT : Nat := 16384

/-- Return value of a GTK signal handler (glib::Propagation). -/
inductive Propagation where
  | Proceed
  | Stop
deriving DecidableEq

/-- Uniform registry: the `HashMap<String, (i32, Uniform)>` of GLState in
src/shader_area/imp.rs, modelled as an association list with unique keys. -/
abbrev Registry := List (String × Int × Uniform)

/-- Lookup in the registry, as HashMap::get keyed by uniform name. -/
def lookupR : Registry → String → Option (Int × Uniform)
  | [], _ => none
  | p :: rest, n => if p.1 = n then some p.2 else lookupR rest n

/-- Insert-or-replace in the registry, as HashMap::insert. -/
def insertR : Registry → String → Int × Uniform → Registry
  | [], n, e => [(n, e)]
  | p :: rest, n, e => if p.1 = n then (n, e) :: rest else p :: insertR rest n e

/-- OpenGL state shared across rendering callbacks (struct GLState in
src/shader_area/imp.rs). -/
structure GLState where
  program : Nat
  vao : Nat
  textures : List Nat
  uniforms : Registry
deriving DecidableEq

/-- Abstraction of the GPU driver and of the image decoder: which shader
sources compile, whether the link succeeds, the uniform-location table that
`GetUniformLocation` answers from for the linked program (a location of -1
means the name is not an active uniform), and which texture source paths
decode successfully (`image::open` succeeding). -/
structure Driver where
  uses_es : Bool
  compileOk : String → Bool
  linkOk : Bool
  loc : String → Int
  decode : String → Bool

/-- Log message emitted when make_current leaves the context in error. -/
def ctxErrMsg : String := "Failed to switch OpenGL context"

/-- Log message of set_uniform when the widget has no GL state yet. -/
def noRenderMsg : String := "Cannot set uniform because the widget is not being rendered"

/-- The typed GPU uniform upload matching a value, from the match in
`apply_uniforms` (src/shader_area/imp.rs lines 439-449). -/
def uniformCall (L : Int) : Uniform → GLCall
  | .Float v => .Uniform1f L v
  | .Vec2 a b => .Uniform2f L a b
  | .Vec3 a b c => .Uniform3f L a b c
  | .Vec4 a b c d => .Uniform4f L a b c d
  | .Int v => .Uniform1i L v
  | .IVec2 a b => .Uniform2i L a b
  | .IVec3 a b c => .Uniform3i L a b c
  | .IVec4 a b c d => .Uniform4i L a b c d

/-- ShaderArea::compile_shader (src/shader_area/imp.rs lines 288-303): create
the stage object, attach the source, compile, log on failure, and return the
stage handle whether or not compilation succeeded.  Stage handles are 1 for
the vertex stage and 2 for the fragment stage. -/
def compile_shader (d : Driver) (id : Nat) (src : String) : Nat × List GLCall :=
  (id, [.CreateShader id, .ShaderSourceCall id src, .CompileShaderCall id]
    ++ if d.compileOk src then [] else [.LogError "Shader compile/link error"])

/-- ShaderArea::link_program (src/shader_area/imp.rs lines 311-331; the
identical link_program of src/shaderarea/mod.rs lines 366-393): compile both
stages, create and link the program, log diagnostics on link failure, delete
both stage objects unconditionally, and return the program handle. -/
def link_program (d : Driver) (vertex fragment : String) : Nat × List GLCall :=
  (1, (compile_shader d 1 vertex).2 ++ (compile_shader d 2 fragment).2
    ++ [.CreateProgram 1, .AttachShader 1 1, .AttachShader 1 2, .LinkProgramCall 1]
    ++ (if d.linkOk then [] else [.LogError "Program compile/link error"])
    ++ [.DeleteShader 1, .DeleteShader 2])

/-- ShaderArea::load_texture (src/shader_area/imp.rs lines 373-427): decode
the image; on failure log and return none with no GL activity; on success
generate a texture object, bind it to unit `index`, set filtering and
wrapping, upload the pixels, and return the handle.  The handle chosen by the
driver is modelled as `index + 1` (any injective choice works). -/
def load_texture (d : Driver) (index : Nat) (path : String) : Option Nat × List GLCall :=
  if d.decode path then
    (some (index + 1),
     [.GenTexture (index + 1), .ActiveTexture (TEXTURE0 + index), .BindTexture (index + 1),
      .TexParameter TEXTURE_MIN_FILTER LINEAR, .TexParameter TEXTURE_MAG_FILTER LINEAR,
      .TexParameter TEXTURE_WRAP_S CLAMP_TO_EDGE, .TexParameter TEXTURE_WRAP_T CLAMP_TO_EDGE,
      .TexImage2D])
  else (none, [.LogError "Failed to load texture"])

/-- The realize texture loop of src/shader_area/imp.rs lines 126-142:
enumerate the sources from index `i`; a failed decode is skipped with
`continue`; a successful one pushes its handle and binds the sampler uniform
named tex<i> (the original enumeration index) to unit `i` when the program
has such an active uniform, warning otherwise. -/
def texture_loop (d : Driver) (i : Nat) : List String → List Nat × List GLCall
  | [] => ([], [])
  | path :: rest =>
    let next := texture_loop d (i + 1) rest
    match load_texture d i path with
    | (none, t0) => (next.1, t0 ++ next.2)
    | (some id, t0) =>
      let L := d.loc ("tex" ++ toString i)
      let bindCall :=
        if 0 ≤ L then [GLCall.Uniform1i L (Int.ofNat i)]
        else [GLCall.LogWarn ("Texture not used in shader: " ++ path)]
      (id :: next.1, t0 ++ bindCall ++ next.2)

/-- Uniform seeding loop of src/shader_area/imp.rs lines 144-154: resolve each
initial uniform in the linked program; store (location, value) when the
location is nonnegative, otherwise warn and drop the entry. -/
def seed_uniforms (d : Driver) : List (String × Uniform) → Registry × List GLCall
  | [] => ([], [])
  | (name, v) :: rest =>
    let next := seed_uniforms d rest
    let L := d.loc name
    if 0 ≤ L then (insertR next.1 name (L, v), next.2)
    else (next.1, GLCall.LogWarn ("Uniform not used in shader: " ++ name) :: next.2)

/-- GLSL version header chosen by the GL flavor (src/shader_area/imp.rs lines
107-111). -/
def glsl_version (uses_es : Bool) : String :=
  if uses_es then "#version 300 es\nprecision highp float;\n" else "#version 330 core\n"

/-- ShaderArea::build_vertex_shader (src/shader_area/imp.rs lines 264-276):
the synthesized fullscreen-quad vertex stage source. -/
def build_vertex_shader (glslVersion : String) : String :=
  glslVersion ++ "\nout vec2 uv;\nvoid main() \x7b\n    vec2 pos = vec2(float(gl_VertexID & 1),\n                    float((gl_VertexID >> 1) & 1));\n    uv          = pos;\n    gl_Position = vec4(pos * 2.0 - 1.0, 0.0, 1.0);\n\x7d\n"

/-- Semantics of the GLSL vertex stage synthesized by `build_vertex_shader`:
from the built-in vertex index alone it derives
pos = (gl_VertexID & 1, (gl_VertexID >> 1) & 1), outputs `uv = pos` and the
clip-space position `pos * 2.0 - 1.0` (z = 0, w = 1 omitted; the two
components are exact integers here). -/
def vertexStage (gl_VertexID : Nat) : (Nat × Nat) × (Int × Int) :=
  let pos := (gl_VertexID &&& 1, (gl_VertexID >>> 1) &&& 1)
  (pos, (2 * (pos.1 : Int) - 1, 2 * (pos.2 : Int) - 1))

/-- The realize handler of src/shader_area/imp.rs lines 98-165: on a context
error, log and return leaving the stored state untouched; otherwise build and
link the shaders, create and bind the vertex array (handle 1), load the
textures, seed the uniform registry, and replace the stored GL state. -/
def realize (d : Driver) (ctxError : Bool) (shader : String) (textures : List String)
    (uniforms : List (String × Uniform)) (st : Option GLState) :
    Option GLState × List GLCall :=
  if ctxError then (st, [.LogError ctxErrMsg])
  else
    let gv := glsl_version d.uses_es
    let lp := link_program d (build_vertex_shader gv) (gv ++ shader)
    let tl := texture_loop d 0 textures
    let su := seed_uniforms d uniforms
    (some { program := lp.1, vao := 1, textures := tl.1, uniforms := su.1 },
     lp.2 ++ [.GenVertexArrays 1, .BindVertexArray 1, .UseProgram lp.1] ++ tl.2 ++ su.2)

/-- ShaderArea::apply_uniforms (src/shader_area/imp.rs lines 435-452): bind
the program and upload every stored (location, value) pair with the typed
call matching its variant. -/
def apply_uniforms (s : GLState) : List GLCall :=
  GLCall.UseProgram s.program :: s.uniforms.map (fun e => uniformCall e.2.1 e.2.2)

/-- Render-time texture binding loop (src/shader_area/imp.rs lines 206-209):
bind the stored handles to consecutive units starting at `unit`. -/
def bind_textures (unit : Nat) : List Nat → List GLCall
  | [] => []
  | id :: rest =>
    GLCall.ActiveTexture (TEXTURE0 + unit) :: GLCall.BindTexture id
      :: bind_textures (unit + 1) rest

/-- The render handler of src/shader_area/imp.rs lines 189-220: on a context
error log and stop; when no GL state exists, do nothing; otherwise clear to
transparent black, apply the uniforms, bind the vertex array, bind the
textures to units 0.., draw the 4-vertex triangle strip and flush.  The
handler always returns Propagation::Stop. -/
def render (ctxError : Bool) (st : Option GLState) : List GLCall × Propagation :=
  if ctxError then ([.LogError ctxErrMsg], .Stop)
  else
    match st with
    | none => ([], .Stop)
    | some s =>
      ([.ClearColor 0 0 0 0, .Clear COLOR_BUFFER_BIT] ++ apply_uniforms s
        ++ [.BindVertexArray s.vao] ++ bind_textures 0 s.textures
        ++ [.DrawArrays TRIANGLE_STRIP 0 4, .Flush], .Stop)

/-- The unrealize handler of src/shader_area/imp.rs lines 169-185: on a
context error log and skip cleanup leaving the state in place; otherwise take
the state and delete the program, the vertex array, and (when any exist) the
texture objects in one batched call. -/
def unrealize (ctxError : Bool) (st : Option GLState) : Option GLState × List GLCall :=
  if ctxError then (st, [.LogError ctxErrMsg])
  else
    match st with
    | none => (none, [])
    | some s =>
      (none, [.DeleteProgram s.program, .DeleteVertexArrays s.vao]
        ++ if s.textures.isEmpty then [] else [.DeleteTextures s.textures])

/-- ShaderArea::set_uniform (src/shader_area/imp.rs lines 229-261): with no GL
state the call warns and returns; a context error logs and returns; otherwise
the location is the cached one or a fresh resolution, a negative location
warns and returns, and a nonnegative one stores (location, value) and queues a
redraw. -/
def set_uniform (d : Driver) (ctxError : Bool) (st : Option GLState) (name : String)
    (v : Uniform) : Option GLState × List GLCall :=
  match st with
  | none => (none, [.LogWarn noRenderMsg])
  | some s =>
    if ctxError then (some s, [.LogError ctxErrMsg])
    else
      let location :=
        match lookupR s.uniforms name with
        | some e => e.1
        | none => d.loc name
      if location < 0 then (some s, [.LogWarn ("Uniform not used in shader: " ++ name)])
      else (some { s with uniforms := insertR s.uniforms name (location, v) }, [.QueueRender])

/-- apply_uniforms of src/shaderarea/mod.rs lines 320-338: unlike the
shader_area variant, it re-resolves every stored name with
GetUniformLocation on each frame and uploads only those resolving to a
nonnegative location. -/
def apply_uniforms_s (d : Driver) (s : GLState) : List GLCall :=
  GLCall.UseProgram s.program
    :: s.uniforms.flatMap (fun e =>
        if 0 ≤ d.loc e.1 then [uniformCall (d.loc e.1) e.2.2] else [])

/-- The render closure of src/shaderarea/mod.rs lines 204-233: on a context
error it silently stops; otherwise it clears to opaque black
(ClearColor(0,0,0,1.0)), applies the uniforms, binds the vertex array and the
textures, draws the strip and flushes; it always returns Propagation::Stop. -/
def render_s (d : Driver) (ctxError : Bool) (st : Option GLState) :
    List GLCall × Propagation :=
  if ctxError then ([], .Stop)
  else
    match st with
    | none => ([], .Stop)
    | some s =>
      ([.ClearColor 0 0 0 1, .Clear COLOR_BUFFER_BIT] ++ apply_uniforms_s d s
        ++ [.BindVertexArray s.vao] ++ bind_textures 0 s.textures
        ++ [.DrawArrays TRIANGLE_STRIP 0 4, .Flush], .Stop)

/-- The realize texture loop of src/shaderarea/mod.rs lines 128-173: its
inputs are already-decoded TextureData values (identified here by the source
path string), every element uploads unconditionally at unit `i`, the sampler
uniform tex<i> is set to `i` when resolvable (silently skipped otherwise),
and the handle is always pushed. -/
def texture_loop_s (d : Driver) (i : Nat) : List String → List Nat × List GLCall
  | [] => ([], [])
  | _ :: rest =>
    let id := i + 1
    let next := texture_loop_s d (i + 1) rest
    let L := d.loc ("tex" ++ toString i)
    let bindCall := if 0 ≤ L then [GLCall.Uniform1i L (Int.ofNat i)] else []
    (id :: next.1,
     ([.GenTexture id, .ActiveTexture (TEXTURE0 + i), .BindTexture id,
       .TexParameter TEXTURE_MIN_FILTER LINEAR, .TexParameter TEXTURE_MAG_FILTER LINEAR,
       .TexParameter TEXTURE_WRAP_S CLAMP_TO_EDGE, .TexParameter TEXTURE_WRAP_T CLAMP_TO_EDGE,
       .TexImage2D] ++ bindCall) ++ next.2)

/-- The texture path of gtk_gl_shaders_new_area_for_shader_with_uniforms in
src/shaderarea/ffi.rs: `filter_map(load_texture)` drops sources that fail to
decode before the realize loop of src/shaderarea/mod.rs ever sees them, so
the loop enumerates only the survivors. -/
def shaderarea_pipeline_textures (d : Driver) (paths : List String) :
    List Nat × List GLCall :=
  texture_loop_s d 0 (paths.filter d.decode)

/-- Sampler-uniform writes (Uniform1i events) of a trace, as (location, unit)
pairs. -/
def samplerCalls (t : List GLCall) : List (Int × Int) :=
  t.filterMap (fun c => match c with | .Uniform1i L v => some (L, v) | _ => none)

/-- Texture units selected by ActiveTexture events of a trace, as offsets
from GL_TEXTURE0. -/
def texUnitBinds (t : List GLCall) : List Nat :=
  t.filterMap (fun c => match c with | .ActiveTexture u => some (u - TEXTURE0) | _ => none)

/-- One full surface lifetime: Activate with a healthy context, any number of
renders (each with its own context-error outcome), then Deactivate with a
healthy context.  Returns the final stored state and the concatenated
trace. -/
def lifecycle (d : Driver) (shader : String) (texs : List String)
    (inits : List (String × Uniform)) (renderErrs : List Bool) :
    Option GLState × List GLCall :=
  let a := realize d false shader texs inits none
  let r := renderErrs.flatMap (fun ce => (render ce a.1).1)
  let u := unrealize false a.1
  (u.1, a.2 ++ r ++ u.2)

/-- The three kinds of GPU objects whose lifetime the spec tracks. -/
inductive ResKind where
  | prog
  | vao
  | tex
deriving DecidableEq

/-- Number of objects of kind `k` allocated by one call. -/
def allocOf (k : ResKind) (c : GLCall) : Nat :=
  match c with
  | .CreateProgram _ => if k = .prog then 1 else 0
  | .GenVertexArrays _ => if k = .vao then 1 else 0
  | .GenTexture _ => if k = .tex then 1 else 0
  | _ => 0

/-- Number of objects of kind `k` deallocated by one call. -/
def deallocOf (k : ResKind) (c : GLCall) : Nat :=
  match c with
  | .DeleteProgram _ => if k = .prog then 1 else 0
  | .DeleteVertexArrays _ => if k = .vao then 1 else 0
  | .DeleteTextures ids => if k = .tex then ids.length else 0
  | _ => 0

/-- Total allocations of kind `k` in a trace. -/
def allocs (k : ResKind) (t : List GLCall) : Nat := (t.map (allocOf k)).sum

/-- Total deallocations of kind `k` in a trace. -/
def deallocs (k : ResKind) (t : List GLCall) : Nat := (t.map (deallocOf k)).sum

/-- States of the stored GL state reachable through any interleaving of the
widget callbacks: the initial empty state, realize, set_uniform, and
unrealize (render never touches the stored state). -/
inductive Reachable (d : Driver) : Option GLState → Prop where
  | start : Reachable d none
  | activate (st : Option GLState) (ce : Bool) (shader : String) (texs : List String)
      (inits : List (String × Uniform)) :
      Reachable d st → Reachable d (realize d ce shader texs inits st).1
  | mutate (st : Option GLState) (ce : Bool) (name : String) (v : Uniform) :
      Reachable d st → Reachable d (set_uniform d ce st name v).1
  | deactivate (st : Option GLState) (ce : Bool) :
      Reachable d st → Reachable d (unrealize ce st).1

/-- Construction-time uniform dictionary, keyed by name (unique keys in the
incoming HashMap). -/
abbrev UMap := List (String × Uniform)

/-- Lookup by name in a parsed uniform map. -/
def lookupU : UMap → String → Option Uniform
  | [], _ => none
  | p :: rest, n => if p.1 = n then some p.2 else lookupU rest n

/-- Insert-or-replace by name in a parsed uniform map. -/
def insertU : UMap → String → Uniform → UMap
  | [], n, u => [(n, u)]
  | p :: rest, n, u => if p.1 = n then (n, u) :: rest else p :: insertU rest n u

/-- Shapes a GVariant value can take for the checks of parse_uniforms in
src/shader_area/ffi.rs: an f64, an f64 array, an i32, an i32 array, or
anything else. -/
inductive GVar where
  | f64 (v : Rat)
  | f64arr (v : List Rat)
  | i32 (v : Int)
  | i32arr (v : List Int)
  | other
deriving DecidableEq

/-- The per-entry conversion of parse_uniforms (src/shader_area/ffi.rs lines
90-123): an f64 becomes Float, an f64 array of length 2, 3 or 4 becomes the
matching vector, likewise for i32 and i32 arrays; every other shape (wrong
arity or unsupported type) yields none. -/
def parse_entry : GVar → Option Uniform
  | .f64 v => some (.Float v)
  | .f64arr [a, b] => some (.Vec2 a b)
  | .f64arr [a, b, c] => some (.Vec3 a b c)
  | .f64arr [a, b, c, d] => some (.Vec4 a b c d)
  | .f64arr _ => none
  | .i32 v => some (.Int v)
  | .i32arr [a, b] => some (.IVec2 a b)
  | .i32arr [a, b, c] => some (.IVec3 a b c)
  | .i32arr [a, b, c, d] => some (.IVec4 a b c d)
  | .i32arr _ => none
  | .other => none

/-- The entry loop of parse_uniforms (src/shader_area/ffi.rs lines 90-125):
well-formed entries are inserted, malformed ones are logged (the message
carries the offending name) and skipped. -/
def parse_uniforms_entries : List (String × GVar) → UMap × List String
  | [] => ([], [])
  | (name, gv) :: rest =>
    let next := parse_uniforms_entries rest
    match parse_entry gv with
    | some u => (insertU next.1 name u, next.2)
    | none => (next.1, ("Uniform " ++ name ++ " is malformed") :: next.2)

/-- parse_uniforms (src/shader_area/ffi.rs lines 82-128): a value that is not
an a-sv dictionary yields an empty map plus an error log; a dictionary is
converted entry by entry. -/
def parse_uniforms (v : Option (List (String × GVar))) : UMap × List String :=
  match v with
  | none => ([], ["Invalid value passed to uniforms - expected a dictionary"])
  | some entries => parse_uniforms_entries entries

/-- Split of a string at every occurrence of a separator character, modelling
str::split(char) used by parse_uniform_spec in src/shaderarea/ffi.rs. -/
def splitCharAux (sep : Char) : List Char → List Char → List String
  | [], acc => [String.mk acc.reverse]
  | c :: rest, acc =>
    if c = sep then String.mk acc.reverse :: splitCharAux sep rest []
    else splitCharAux sep rest (c :: acc)

/-- Split a string at a separator character. -/
def splitChar (sep : Char) (s : String) : List String := splitCharAux sep s.toList []

/-- Whitespace trimming, modelling str::trim. -/
def trimStr (s : String) : String :=
  String.mk (((s.toList.dropWhile Char.isWhitespace).reverse.dropWhile
    Char.isWhitespace).reverse)

/-- The value list of one spec entry (src/shaderarea/ffi.rs lines 117-120):
split on commas, trim, and keep the pieces the float parser accepts.  The
platform f32 parser is passed in as `pn`. -/
def parse_num_list (pn : String → Option Rat) (s : String) : List Rat :=
  (splitChar ',' s).filterMap (fun x => pn (trimStr x))

/-- Rust `as i32` truncation toward zero of an f32 value (saturation at the
i32 bounds is irrelevant for the small literals in play). -/
def f32_as_i32 (v : Rat) : Int := if 0 ≤ v then v.floor else v.ceil

/-- Outcome of one iteration of the parse_uniform_spec loop: silently skipped
(empty piece), rejected with a log line, or accepted. -/
inductive SpecResult where
  | skip
  | bad (msg : String)
  | ok (name : String) (u : Uniform)
deriving DecidableEq

/-- One iteration of the loop of parse_uniform_spec (src/shaderarea/ffi.rs
lines 103-148): trim the piece; skip it when empty; reject with a log when it
does not have exactly three colon-separated parts or when the type tag is
unknown; otherwise build the value for tags f, v2, v3, v4 or i, defaulting
every missing component to 0.0. -/
def parse_one (pn : String → Option Rat) (raw : String) : SpecResult :=
  let s := trimStr raw
  if s = "" then .skip
  else
    let parts := splitChar ':' s
    if parts.length = 3 then
      let name := parts.getD 0 ""
      let type_str := parts.getD 1 ""
      let vals := parse_num_list pn (parts.getD 2 "")
      if type_str = "f" then .ok name (.Float (vals.getD 0 0))
      else if type_str = "v2" then .ok name (.Vec2 (vals.getD 0 0) (vals.getD 1 0))
      else if type_str = "v3" then
        .ok name (.Vec3 (vals.getD 0 0) (vals.getD 1 0) (vals.getD 2 0))
      else if type_str = "v4" then
        .ok name (.Vec4 (vals.getD 0 0) (vals.getD 1 0) (vals.getD 2 0) (vals.getD 3 0))
      else if type_str = "i" then
        .ok name (.Int (((vals.get? 0).map f32_as_i32).getD 0))
      else .bad ("Unknown uniform type: " ++ type_str)
    else .bad ("Invalid uniform spec: " ++ s)

/-- The fold of parse_uniform_spec over the semicolon-separated pieces:
accepted entries are inserted, rejected ones logged, empty ones skipped. -/
def parse_spec_entries (pn : String → Option Rat) : List String → UMap × List String
  | [] => ([], [])
  | s :: rest =>
    let next := parse_spec_entries pn rest
    match parse_one pn s with
    | .skip => next
    | .bad msg => (next.1, msg :: next.2)
    | .ok name u => (insertU next.1 name u, next.2)

/-- parse_uniform_spec (src/shaderarea/ffi.rs lines 100-151). -/
def parse_uniform_spec (pn : String → Option Rat) (spec : String) : UMap × List String :=
  parse_spec_entries pn (splitChar ';' spec)

/-- Recognizer for the rejected outcome of one spec piece. -/
def isBadR : SpecResult → Bool
  | .bad _ => true
  | _ => false

/-- A concrete driver used by the closed witness and counterexample theorems:
desktop GL, everything compiles and links, the program declares the uniform
`u` and the samplers tex0, tex1 and tex2 at locations 3, 5, 6 and 7, and
every texture path except "bad" decodes. -/
def d0 : Driver :=
  { uses_es := false
    compileOk := fun _ => true
    linkOk := true
    loc := fun n =>
      if n = "u" then 3
      else if n = "tex0" then 5
      else if n = "tex1" then 6
      else if n = "tex2" then 7
      else -1
    decode := fun p => p ≠ "bad" }

/-- A concrete driver on which both shader compilation and the link fail. -/
def dFail : Driver :=
  { uses_es := false
    compileOk := fun _ => false
    linkOk := false
    loc := fun _ => -1
    decode := fun _ => true }

/-- A concrete GL state with no textures and no uniforms. -/
def s0 : GLState := { program := 1, vao := 1, textures := [], uniforms := [] }

/-- A concrete float parser for the spec-string counterexample, agreeing with
f32 parsing on the inputs that occur there. -/
def pn0 : String → Option Rat :=
  fun s => if s = "1" then some 1 else if s = "2" then some 2 else none

/-- Membership after an insert-or-replace: an entry is the inserted one or an
old one. -/
theorem insertR_mem {r : Registry} {n : String} {e : Int × Uniform}
    {x : String × Int × Uniform} (hx : x ∈ insertR r n e) : x = (n, e) ∨ x ∈ r := by
  induction r with
  | nil => simpa [insertR] using hx
  | cons p rest ih =>
    by_cases h : p.1 = n
    · simp only [insertR, if_pos h, List.mem_cons] at hx
      rcases hx with h1 | h1
      · exact Or.inl h1
      · exact Or.inr (List.mem_cons_of_mem _ h1)
    · simp only [insertR, if_neg h, List.mem_cons] at hx
      rcases hx with h1 | h1
      · exact Or.inr (by simp [h1])
      · rcases ih h1 with h2 | h2
        · exact Or.inl h2
        · exact Or.inr (List.mem_cons_of_mem _ h2)

/-- A successful lookup exhibits a registry entry. -/
theorem lookupR_mem {r : Registry} {n : String} {e : Int × Uniform}
    (h : lookupR r n = some e) : (n, e) ∈ r := by
  induction r with
  | nil => simp [lookupR] at h
  | cons p rest ih =>
    by_cases hp : p.1 = n
    · simp only [lookupR, if_pos hp] at h
      cases p with
      | mk a b =>
        cases h
        simp_all
    · simp only [lookupR, if_neg hp] at h
      exact List.mem_cons_of_mem _ (ih h)

/-- Inserting under one name does not change lookups under another. -/
theorem lookupR_insertR_ne (r : Registry) {m n : String} (h : m ≠ n)
    (e : Int × Uniform) : lookupR (insertR r m e) n = lookupR r n := by
  induction r with
  | nil => simp [insertR, lookupR, h]
  | cons p rest ih =>
    by_cases hp : p.1 = m
    · simp [insertR, lookupR, hp, h]
    · by_cases hn : p.1 = n
      · simp [insertR, lookupR, hp, hn, Ne.symm h]
      · simp [insertR, lookupR, hp, hn, ih]

/-- Every entry stored by the seeding loop has a nonnegative location. -/
theorem seed_uniforms_nonneg (d : Driver) (inits : List (String × Uniform)) :
    ∀ e ∈ (seed_uniforms d inits).1, 0 ≤ e.2.1 := by
  induction inits with
  | nil => simp [seed_uniforms]
  | cons p rest ih =>
    cases p with
    | mk name v =>
      by_cases h : 0 ≤ d.loc name
      · intro e he
        simp only [seed_uniforms, if_pos h] at he
        rcases insertR_mem he with h1 | h1
        · subst h1; exact h
        · exact ih e h1
      · intro e he
        simp only [seed_uniforms, if_neg h] at he
        exact ih e he

/-- Seeding never creates an entry for a name the program does not report. -/
theorem seed_uniforms_lookup_neg (d : Driver) (name : String) (hneg : d.loc name < 0) :
    ∀ inits : List (String × Uniform), lookupR (seed_uniforms d inits).1 name = none := by
  intro inits
  induction inits with
  | nil => simp [seed_uniforms, lookupR]
  | cons p rest ih =>
    cases p with
    | mk m v =>
      by_cases h : 0 ≤ d.loc m
      · have hmn : m ≠ name := by
          intro hEq
          rw [hEq] at h
          omega
        simp only [seed_uniforms, if_pos h]
        rw [lookupR_insertR_ne _ hmn]
        exact ih
      · simpa only [seed_uniforms, if_neg h] using ih

/-- C2: in every reachable registry state no stored entry has location -1 (all
stored locations are nonnegative); seeding with a name the linked program
does not report leaves the registry without an entry for that name; and a set
call whose fresh resolution fails logs a warning and leaves the state
unchanged. -/
theorem C2_registry_location_invariant (d : Driver) (st : Option GLState)
    (h : Reachable d st) :
    (∀ s : GLState, st = some s → ∀ e ∈ s.uniforms, 0 ≤ e.2.1)
      ∧ (∀ (name : String) (inits : List (String × Uniform)), d.loc name < 0 →
          lookupR (seed_uniforms d inits).1 name = none)
      ∧ (∀ (s : GLState) (name : String) (v : Uniform),
          lookupR s.uniforms name = none → d.loc name < 0 →
          set_uniform d false (some s) name v
            = (some s, [GLCall.LogWarn ("Uniform not used in shader: " ++ name)])) := by
  refine ⟨?_, fun name inits hneg => seed_uniforms_lookup_neg d name hneg inits,
    fun s name v hl hneg => by simp [set_uniform, hl, hneg]⟩
  induction h with
  | start => intro s hs; cases hs
  | activate st ce shader texs inits hr ih =>
    cases ce with
    | false =>
      intro s hs
      simp only [realize, if_neg (by simp : ¬ (false = true))] at hs
      cases hs
      exact seed_uniforms_nonneg d inits
    | true =>
      simpa [realize] using ih
  | mutate st ce name v hr ih =>
    cases st with
    | none =>
      intro s hs
      simp [set_uniform] at hs
    | some s1 =>
      cases ce with
      | true =>
        intro s hs
        have hs1 : s1 = s := by simpa [set_uniform] using hs
        subst hs1
        exact ih s1 rfl
      | false =>
        rcases hcache : lookupR s1.uniforms name with _ | e0
        · by_cases hsign : d.loc name < 0
          · intro s hs
            have hs1 : s1 = s := by simpa [set_uniform, hcache, hsign] using hs
            subst hs1
            exact ih s1 rfl
          · intro s hs
            simp only [set_uniform, hcache, if_neg hsign] at hs
            cases hs
            intro e he
            rcases insertR_mem he with h1 | h1
            · subst h1
              show 0 ≤ d.loc name
              omega
            · exact ih s1 rfl e h1
        · have h0 : 0 ≤ e0.1 := (ih s1 rfl (name, e0) (lookupR_mem hcache))
          have hsign : ¬ e0.1 < 0 := by omega
          intro s hs
          simp only [set_uniform, hcache, if_neg hsign] at hs
          cases hs
          intro e he
          rcases insertR_mem he with h1 | h1
          · subst h1; exact h0
          · exact ih s1 rfl e h1
  | deactivate st ce hr ih =>
    cases ce with
    | true => simpa [unrealize] using ih
    | false =>
      cases st with
      | none => intro s hs; simp [unrealize] at hs
      | some s1 => intro s hs; simp [unrealize] at hs

/-- Witness for C2: on the concrete driver d0 and the empty concrete state
s0, a set call for the undeclared name "nope" warns and leaves the state
unchanged. -/
theorem C2_witness :
    set_uniform d0 false (some s0) "nope" (Uniform.Float 2)
      = (some s0, [GLCall.LogWarn ("Uniform not used in shader: " ++ "nope")]) :=
  (C2_registry_location_invariant d0 none Reachable.start).2.2 s0 "nope"
    (Uniform.Float 2) (by decide) (by decide)

/-- Allocation counts are additive over trace concatenation. -/
theorem allocs_append (k : ResKind) (a b : List GLCall) :
    allocs k (a ++ b) = allocs k a + allocs k b := by
  simp [allocs]

/-- Deallocation counts are additive over trace concatenation. -/
theorem deallocs_append (k : ResKind) (a b : List GLCall) :
    deallocs k (a ++ b) = deallocs k a + deallocs k b := by
  simp [deallocs]

/-- Allocation count of a cons cell. -/
theorem allocs_cons (k : ResKind) (c : GLCall) (t : List GLCall) :
    allocs k (c :: t) = allocOf k c + allocs k t := by
  simp [allocs]

/-- Deallocation count of a cons cell. -/
theorem deallocs_cons (k : ResKind) (c : GLCall) (t : List GLCall) :
    deallocs k (c :: t) = deallocOf k c + deallocs k t := by
  simp [deallocs]

/-- Allocation count of the empty trace. -/
theorem allocs_nil (k : ResKind) : allocs k [] = 0 := rfl

/-- Deallocation count of the empty trace. -/
theorem deallocs_nil (k : ResKind) : deallocs k [] = 0 := rfl

/-- The compile-and-link step allocates exactly one program (stage objects are
not among the tracked kinds: both are deleted within the step) and deallocates
none of the tracked kinds. -/
theorem link_program_counts (d : Driver) (v f : String) (k : ResKind) :
    allocs k (link_program d v f).2 = (if k = .prog then 1 else 0)
      ∧ deallocs k (link_program d v f).2 = 0 := by
  cases hv : d.compileOk v <;> cases hf : d.compileOk f <;> cases hl : d.linkOk <;>
    cases k <;>
      simp [link_program, compile_shader, allocs, deallocs, allocOf, deallocOf, hv, hf, hl]

/-- The realize texture loop stores one handle per successful decode. -/
theorem texture_loop_length (d : Driver) :
    ∀ (texs : List String) (i : Nat),
      (texture_loop d i texs).1.length = texs.countP d.decode := by
  intro texs
  induction texs with
  | nil => intro i; simp [texture_loop, List.countP_nil]
  | cons p rest ih =>
    intro i
    by_cases hd : d.decode p
    · by_cases hloc : 0 ≤ d.loc ("tex" ++ toString i)
      · simp [texture_loop, load_texture, hd, hloc, List.countP_cons, ih]
      · simp [texture_loop, load_texture, hd, hloc, List.countP_cons, ih]
    · simp [texture_loop, load_texture, hd, List.countP_cons, ih]

/-- The realize texture loop allocates one texture object per successful
decode and nothing else. -/
theorem texture_loop_allocs (d : Driver) (k : ResKind) :
    ∀ (texs : List String) (i : Nat),
      allocs k (texture_loop d i texs).2
        = if k = .tex then texs.countP d.decode else 0 := by
  intro texs
  induction texs with
  | nil => intro i; cases k <;> simp [texture_loop, allocs_nil, List.countP_nil]
  | cons p rest ih =>
    intro i
    by_cases hd : d.decode p
    · by_cases hloc : 0 ≤ d.loc ("tex" ++ toString i)
      · cases k <;>
          simp [texture_loop, load_texture, hd, hloc, allocs_cons, allocs_nil, allocOf,
            List.countP_cons, ih, allocs_append] <;> try omega
      · cases k <;>
          simp [texture_loop, load_texture, hd, hloc, allocs_cons, allocs_nil, allocOf,
            List.countP_cons, ih, allocs_append] <;> try omega
    · cases k <;>
        simp [texture_loop, load_texture, hd, allocs_cons, allocs_nil, allocOf,
          List.countP_cons, ih, allocs_append]

/-- The realize texture loop deallocates nothing. -/
theorem texture_loop_deallocs (d : Driver) (k : ResKind) :
    ∀ (texs : List String) (i : Nat), deallocs k (texture_loop d i texs).2 = 0 := by
  intro texs
  induction texs with
  | nil => intro i; simp [texture_loop, deallocs_nil]
  | cons p rest ih =>
    intro i
    by_cases hd : d.decode p
    · by_cases hloc : 0 ≤ d.loc ("tex" ++ toString i)
      · simp [texture_loop, load_texture, hd, hloc, deallocs_cons, deallocs_nil,
          deallocOf, ih, deallocs_append]
      · simp [texture_loop, load_texture, hd, hloc, deallocs_cons, deallocs_nil,
          deallocOf, ih, deallocs_append]
    · simp [texture_loop, load_texture, hd, deallocs_cons, deallocs_nil, deallocOf, ih,
        deallocs_append]

/-- Uniform seeding touches no GPU objects. -/
theorem seed_uniforms_counts (d : Driver) (k : ResKind) :
    ∀ inits : List (String × Uniform),
      allocs k (seed_uniforms d inits).2 = 0 ∧ deallocs k (seed_uniforms d inits).2 = 0 := by
  intro inits
  induction inits with
  | nil => simp [seed_uniforms, allocs, deallocs]
  | cons p rest ih =>
    cases p with
    | mk name v =>
      by_cases h : 0 ≤ d.loc name
      · simpa [seed_uniforms, h] using ih
      · simpa [seed_uniforms, h, allocs, deallocs, allocOf, deallocOf] using ih

/-- A typed uniform upload is neither an allocation nor a deallocation. -/
theorem uniformCall_counts (k : ResKind) (L : Int) (u : Uniform) :
    allocOf k (uniformCall L u) = 0 ∧ deallocOf k (uniformCall L u) = 0 := by
  cases u <;> simp [uniformCall, allocOf, deallocOf]

/-- Applying the stored uniforms touches no GPU objects. -/
theorem apply_uniforms_counts (k : ResKind) (s : GLState) :
    allocs k (apply_uniforms s) = 0 ∧ deallocs k (apply_uniforms s) = 0 := by
  constructor
  · simp only [apply_uniforms, allocs, List.map_cons, List.sum_cons, List.map_map]
    have h1 : allocOf k (GLCall.UseProgram s.program) = 0 := by simp [allocOf]
    rw [h1]
    simp only [Nat.zero_add]
    apply List.sum_eq_zero
    intro x hx
    simp only [List.mem_map, Function.comp] at hx
    obtain ⟨e, _, he⟩ := hx
    rw [← he]
    exact (uniformCall_counts k e.2.1 e.2.2).1
  · simp only [apply_uniforms, deallocs, List.map_cons, List.sum_cons, List.map_map]
    have h1 : deallocOf k (GLCall.UseProgram s.program) = 0 := by simp [deallocOf]
    rw [h1]
    simp only [Nat.zero_add]
    apply List.sum_eq_zero
    intro x hx
    simp only [List.mem_map, Function.comp] at hx
    obtain ⟨e, _, he⟩ := hx
    rw [← he]
    exact (uniformCall_counts k e.2.1 e.2.2).2

/-- Render-time texture binding touches no GPU objects. -/
theorem bind_textures_counts (k : ResKind) :
    ∀ (l : List Nat) (n : Nat),
      allocs k (bind_textures n l) = 0 ∧ deallocs k (bind_textures n l) = 0 := by
  intro l
  induction l with
  | nil => intro n; simp [bind_textures, allocs, deallocs]
  | cons id rest ih =>
    intro n
    have := ih (n + 1)
    simp [bind_textures, allocs, deallocs, allocOf, deallocOf, allocs_append,
      deallocs_append] at this ⊢
    exact this

/-- A frame render neither allocates nor deallocates GPU objects. -/
theorem render_counts (k : ResKind) (ce : Bool) (st : Option GLState) :
    allocs k (render ce st).1 = 0 ∧ deallocs k (render ce st).1 = 0 := by
  cases ce with
  | true => simp [render, allocs, deallocs, allocOf, deallocOf]
  | false =>
    cases st with
    | none => simp [render, allocs, deallocs]
    | some s =>
      have ha := apply_uniforms_counts k s
      have hb := bind_textures_counts k s.textures 0
      simp [render, allocs_append, deallocs_append, ha.1, ha.2, hb.1, hb.2,
        allocs_cons, deallocs_cons, allocs_nil, deallocs_nil, allocOf, deallocOf]

/-- Any number of frame renders neither allocates nor deallocates. -/
theorem renders_counts (k : ResKind) (st : Option GLState) :
    ∀ errs : List Bool,
      allocs k (errs.flatMap fun ce => (render ce st).1) = 0
        ∧ deallocs k (errs.flatMap fun ce => (render ce st).1) = 0 := by
  intro errs
  induction errs with
  | nil => simp [allocs, deallocs]
  | cons ce rest ih =>
    have h := render_counts k ce st
    simp [List.flatMap_cons, allocs_append, deallocs_append, h.1, h.2, ih.1, ih.2]

/-- Activation with a healthy context allocates one program, one vertex array
and one texture per successful decode, and deallocates none of the tracked
kinds. -/
theorem realize_counts (d : Driver) (sh : String) (texs : List String)
    (inits : List (String × Uniform)) (k : ResKind) :
    allocs k (realize d false sh texs inits none).2
        = (if k = .prog then 1 else 0) + (if k = .vao then 1 else 0)
          + (if k = .tex then texs.countP d.decode else 0)
      ∧ deallocs k (realize d false sh texs inits none).2 = 0 := by
  have hl := link_program_counts d (build_vertex_shader (glsl_version d.uses_es))
    (glsl_version d.uses_es ++ sh) k
  have ht1 := texture_loop_allocs d k texs 0
  have ht2 := texture_loop_deallocs d k texs 0
  have hs := seed_uniforms_counts d k inits
  constructor
  · cases k <;>
      simp [realize, allocs_append, hl.1, ht1, hs.1, allocs_cons, allocs_nil, allocOf]
  · cases k <;>
      simp [realize, deallocs_append, hl.2, ht2, hs.2, deallocs_cons, deallocs_nil,
        deallocOf]

/-- Deactivation with a healthy context deletes one program, one vertex array
and every stored texture handle, allocating nothing. -/
theorem unrealize_counts (s : GLState) (k : ResKind) :
    deallocs k (unrealize false (some s)).2
        = (if k = .prog then 1 else 0) + (if k = .vao then 1 else 0)
          + (if k = .tex then s.textures.length else 0)
      ∧ allocs k (unrealize false (some s)).2 = 0 := by
  rcases hT : s.textures with _ | ⟨t, ts⟩
  · cases k <;>
      simp [unrealize, hT, allocs, deallocs, allocOf, deallocOf]
  · cases k <;>
      simp [unrealize, hT, allocs, deallocs, allocOf, deallocOf, allocs_append,
        deallocs_append]

/-- C3: over a completed Activate, then any number of Renders, then
Deactivate, with the context healthy at both ends, each tracked GPU object
kind is deallocated exactly as often as it was allocated: one program, one
vertex array, and one texture per successfully decoded source; and the final
stored state is empty (Inactive, no retained handles). -/
theorem C3_lifecycle_symmetry (d : Driver) (shader : String) (texs : List String)
    (inits : List (String × Uniform)) (renderErrs : List Bool) :
    (lifecycle d shader texs inits renderErrs).1 = none
      ∧ (∀ k : ResKind,
          allocs k (lifecycle d shader texs inits renderErrs).2
            = deallocs k (lifecycle d shader texs inits renderErrs).2)
      ∧ allocs .prog (lifecycle d shader texs inits renderErrs).2 = 1
      ∧ allocs .vao (lifecycle d shader texs inits renderErrs).2 = 1
      ∧ allocs .tex (lifecycle d shader texs inits renderErrs).2
          = texs.countP d.decode := by
  have hfst : (realize d false shader texs inits none).1
      = some ⟨1, 1, (texture_loop d 0 texs).1, (seed_uniforms d inits).1⟩ := by
    simp [realize, link_program]
  have hlen : (texture_loop d 0 texs).1.length = texs.countP d.decode :=
    texture_loop_length d texs 0
  have key : ∀ k : ResKind,
      allocs k (lifecycle d shader texs inits renderErrs).2
          = (if k = .prog then 1 else 0) + (if k = .vao then 1 else 0)
            + (if k = .tex then texs.countP d.decode else 0)
        ∧ deallocs k (lifecycle d shader texs inits renderErrs).2
          = (if k = .prog then 1 else 0) + (if k = .vao then 1 else 0)
            + (if k = .tex then texs.countP d.decode else 0) := by
    intro k
    have hr := realize_counts d shader texs inits k
    have hm := renders_counts k (realize d false shader texs inits none).1 renderErrs
    rw [hfst] at hm
    have hu := unrealize_counts ⟨1, 1, (texture_loop d 0 texs).1, (seed_uniforms d inits).1⟩ k
    constructor
    · simp [lifecycle, allocs_append, hr.1, hm.1, hfst, hu.2]
    · simp only [lifecycle, deallocs_append, hr.2, hm.2, hfst, hu.1]
      simp [hlen]
  refine ⟨?_, fun k => ((key k).1).trans ((key k).2).symm, ?_, ?_, ?_⟩
  · simp [lifecycle, hfst, unrealize]
  · simpa using (key .prog).1
  · simpa using (key .vao).1
  · simpa using (key .tex).1

/-- C5: when the context reports an error at the start of Render, the handler
emits only the error log, so no draw call is issued and the uniform-apply
routine is not invoked; and whatever the case (error, inactive, or a
completed draw), the handler reports Stop (handled) to its caller. -/
theorem C5_render_error_short_circuit :
    (∀ st : Option GLState,
        render true st = ([GLCall.LogError ctxErrMsg], Propagation.Stop))
      ∧ (∀ (ce : Bool) (st : Option GLState), (render ce st).2 = Propagation.Stop) := by
  constructor
  · intro st
    simp [render]
  · intro ce st
    cases ce with
    | true => simp [render]
    | false => cases st <;> simp [render]

/-- C7: a set_uniform call made while no GL state exists is a warning-only
no-op: the state stays empty, nothing is queued (the trace holds only the
warning), and a later activation yields exactly the same result as if the
call had never happened, so the dropped write is not replayed. -/
theorem C7_set_uniform_before_activation (d : Driver) (ce : Bool) (name : String)
    (v : Uniform) :
    set_uniform d ce none name v = (none, [GLCall.LogWarn noRenderMsg])
      ∧ (∀ (d2 : Driver) (ce2 : Bool) (sh : String) (texs : List String)
          (inits : List (String × Uniform)),
          realize d2 ce2 sh texs inits (set_uniform d ce none name v).1
            = realize d2 ce2 sh texs inits none) := by
  exact ⟨rfl, fun d2 ce2 sh texs inits => rfl⟩

/-- C10: a set_uniform call made after activation that hits a context error
returns with only the error log: the stored state (registry included) is
returned unchanged and no redraw is queued. -/
theorem C10_set_uniform_context_error (d : Driver) (s : GLState) (name : String)
    (v : Uniform) :
    set_uniform d true (some s) name v = (some s, [GLCall.LogError ctxErrMsg]) := by
  simp [set_uniform]

/-- C6: the compile-and-link step always ends by deleting both intermediate
stage objects (its trace is some prefix followed by the two DeleteShader
calls), logs diagnostics on compile or link failure instead of raising, and
the program handle it returns (whatever the link outcome) is exactly what a
successful activation stores as the program of the Active state. -/
theorem C6_link_deletes_stages (d : Driver) (vertex fragment : String) :
    (∃ t : List GLCall,
        (link_program d vertex fragment).2
          = t ++ [GLCall.DeleteShader 1, GLCall.DeleteShader 2])
      ∧ (d.compileOk vertex = false →
          GLCall.LogError "Shader compile/link error" ∈ (link_program d vertex fragment).2)
      ∧ (d.linkOk = false →
          GLCall.LogError "Program compile/link error" ∈ (link_program d vertex fragment).2)
      ∧ (∀ (sh : String) (texs : List String) (inits : List (String × Uniform))
          (st : Option GLState) (s : GLState),
          (realize d false sh texs inits st).1 = some s →
          s.program = (link_program d vertex fragment).1) := by
  refine ⟨?_, ?_, ?_, ?_⟩
  · refine ⟨(compile_shader d 1 vertex).2 ++ (compile_shader d 2 fragment).2
      ++ [.CreateProgram 1, .AttachShader 1 1, .AttachShader 1 2, .LinkProgramCall 1]
      ++ (if d.linkOk then [] else [.LogError "Program compile/link error"]), ?_⟩
    simp [link_program]
  · intro h
    simp [link_program, compile_shader, h]
  · intro h
    simp [link_program, h]
  · intro sh texs inits st s hs
    have h1 : (realize d false sh texs inits st).1
        = some ⟨1, 1, (texture_loop d 0 texs).1, (seed_uniforms d inits).1⟩ := by
      simp [realize, link_program]
    rw [h1] at hs
    cases hs
    rfl

/-- Witness for C6 on the concrete driver dFail where both stages fail to
compile and the link fails: both diagnostics are logged and the (invalid)
program handle is still what activation stores. -/
theorem C6_witness :
    GLCall.LogError "Shader compile/link error" ∈ (link_program dFail "v" "f").2
      ∧ GLCall.LogError "Program compile/link error" ∈ (link_program dFail "v" "f").2
      ∧ s0.program = (link_program dFail "v" "f").1 :=
  ⟨(C6_link_deletes_stages dFail "v" "f").2.1 (by decide),
   (C6_link_deletes_stages dFail "v" "f").2.2.1 (by decide),
   (C6_link_deletes_stages dFail "v" "f").2.2.2 "sh" [] [] none s0 (by decide)⟩

/-- C9: the synthesized vertex stage derives its quad corner purely from the
per-vertex index: for indices 0, 1, 2, 3 the uv corner is (0,0), (1,0),
(0,1), (1,1) and the clip-space corner is (-1,-1), (1,-1), (-1,1), (1,1); for
every index both uv components stay in [0,1]; and the clip-space position is
always uv * 2 - 1. -/
theorem C9_vertex_quad_corners :
    ((vertexStage 0).1 = (0, 0) ∧ (vertexStage 1).1 = (1, 0)
        ∧ (vertexStage 2).1 = (0, 1) ∧ (vertexStage 3).1 = (1, 1))
      ∧ ((vertexStage 0).2 = (-1, -1) ∧ (vertexStage 1).2 = (1, -1)
        ∧ (vertexStage 2).2 = (-1, 1) ∧ (vertexStage 3).2 = (1, 1))
      ∧ (∀ i : Nat, (vertexStage i).1.1 ≤ 1 ∧ (vertexStage i).1.2 ≤ 1)
      ∧ (∀ i : Nat,
          (vertexStage i).2.1 = 2 * ((vertexStage i).1.1 : Int) - 1
            ∧ (vertexStage i).2.2 = 2 * ((vertexStage i).1.2 : Int) - 1) := by
  refine ⟨by decide, by decide, ?_, ?_⟩
  · intro i
    constructor
    · show i &&& 1 ≤ 1
      have h := Nat.and_one_is_mod i
      omega
    · show (i >>> 1) &&& 1 ≤ 1
      have h := Nat.and_one_is_mod (i >>> 1)
      omega
  · intro i
    exact ⟨rfl, rfl⟩

/-- The render-time binding loop enumerates the stored handles onto
consecutive units starting at `n`. -/
theorem bind_textures_enumFrom :
    ∀ (l : List Nat) (n : Nat),
      bind_textures n l
        = (List.enumFrom n l).flatMap
            (fun p => [GLCall.ActiveTexture (TEXTURE0 + p.1), GLCall.BindTexture p.2]) := by
  intro l
  induction l with
  | nil => intro n; simp [bind_textures]
  | cons id rest ih =>
    intro n
    simp [bind_textures, List.enumFrom, ih (n + 1)]

/-- C4 (amended): for an Active state with a healthy context the shader_area
render handler performs, in order: clear to transparent black (0,0,0,0),
bind the program and upload every stored uniform, bind the vertex array,
bind each stored texture to consecutive units 0.., draw the 4-vertex
triangle strip, flush.  The shaderarea variant performs the same sequence
except that it clears to opaque black (0,0,0,1) and re-resolves every
uniform name on each frame, uploading only those that resolve. -/
theorem C4_render_sequence (d : Driver) (s : GLState) :
    render false (some s)
        = ([GLCall.ClearColor 0 0 0 0, GLCall.Clear COLOR_BUFFER_BIT,
            GLCall.UseProgram s.program]
            ++ s.uniforms.map (fun e => uniformCall e.2.1 e.2.2)
            ++ [GLCall.BindVertexArray s.vao]
            ++ (s.textures.enum.flatMap
                (fun p => [GLCall.ActiveTexture (TEXTURE0 + p.1), GLCall.BindTexture p.2]))
            ++ [GLCall.DrawArrays TRIANGLE_STRIP 0 4, GLCall.Flush], Propagation.Stop)
      ∧ render_s d false (some s)
        = ([GLCall.ClearColor 0 0 0 1, GLCall.Clear COLOR_BUFFER_BIT,
            GLCall.UseProgram s.program]
            ++ s.uniforms.flatMap
                (fun e => if 0 ≤ d.loc e.1 then [uniformCall (d.loc e.1) e.2.2] else [])
            ++ [GLCall.BindVertexArray s.vao]
            ++ (s.textures.enum.flatMap
                (fun p => [GLCall.ActiveTexture (TEXTURE0 + p.1), GLCall.BindTexture p.2]))
            ++ [GLCall.DrawArrays TRIANGLE_STRIP 0 4, GLCall.Flush], Propagation.Stop) := by
  constructor
  · simp [render, apply_uniforms, bind_textures_enumFrom, List.enum]
  · simp [render_s, apply_uniforms_s, bind_textures_enumFrom, List.enum]

/-- Counterexample for C4 as stated: on the concrete driver d0 and state s0
with a healthy context, the shaderarea render handler does draw a frame but
clears to opaque black (0,0,0,1); no ClearColor(0,0,0,0) call appears in its
trace, contradicting "clear the color buffer to transparent black (RGBA
0,0,0,0)" for this render handler. -/
theorem C4_counterexample :
    (render_s d0 false (some s0)).1.head? = some (GLCall.ClearColor 0 0 0 1)
      ∧ GLCall.ClearColor 0 0 0 0 ∉ (render_s d0 false (some s0)).1
      ∧ GLCall.DrawArrays TRIANGLE_STRIP 0 4 ∈ (render_s d0 false (some s0)).1 := by
  decide

/-- Sampler-call projection of the empty trace. -/
theorem samplerCalls_nil : samplerCalls [] = [] := rfl

/-- Sampler-call projection of a cons cell. -/
theorem samplerCalls_cons (c : GLCall) (t : List GLCall) :
    samplerCalls (c :: t)
      = (match c with | GLCall.Uniform1i L v => [(L, v)] | _ => []) ++ samplerCalls t := by
  cases c <;> rfl

/-- Sampler-call projection distributes over concatenation. -/
theorem samplerCalls_append (a b : List GLCall) :
    samplerCalls (a ++ b) = samplerCalls a ++ samplerCalls b := by
  simp [samplerCalls]

/-- The compile-and-link step performs no sampler-uniform writes. -/
theorem samplerCalls_link (d : Driver) (v f : String) :
    samplerCalls (link_program d v f).2 = [] := by
  cases hv : d.compileOk v <;> cases hf : d.compileOk f <;> cases hl : d.linkOk <;>
    simp [link_program, compile_shader, hv, hf, hl, samplerCalls_cons, samplerCalls_nil,
      samplerCalls_append]

/-- Uniform seeding performs no sampler-uniform writes. -/
theorem samplerCalls_seed (d : Driver) :
    ∀ inits : List (String × Uniform), samplerCalls (seed_uniforms d inits).2 = [] := by
  intro inits
  induction inits with
  | nil => rfl
  | cons p rest ih =>
    cases p with
    | mk m v =>
      by_cases h : 0 ≤ d.loc m
      · simpa [seed_uniforms, h] using ih
      · simpa [seed_uniforms, h, samplerCalls_cons] using ih

/-- The sampler-uniform writes of a healthy activation are exactly those of
its texture loop. -/
theorem samplerCalls_realize (d : Driver) (sh : String) (texs : List String)
    (inits : List (String × Uniform)) :
    samplerCalls (realize d false sh texs inits none).2
      = samplerCalls (texture_loop d 0 texs).2 := by
  simp [realize, samplerCalls_append, samplerCalls_link, samplerCalls_seed,
    samplerCalls_cons, samplerCalls_nil]

/-- Unit projection of the empty trace. -/
theorem texUnitBinds_nil : texUnitBinds [] = [] := rfl

/-- Unit projection of a cons cell. -/
theorem texUnitBinds_cons (c : GLCall) (t : List GLCall) :
    texUnitBinds (c :: t)
      = (match c with | GLCall.ActiveTexture u => [u - TEXTURE0] | _ => [])
        ++ texUnitBinds t := by
  cases c <;> rfl

/-- Unit projection distributes over concatenation. -/
theorem texUnitBinds_append (a b : List GLCall) :
    texUnitBinds (a ++ b) = texUnitBinds a ++ texUnitBinds b := by
  simp [texUnitBinds]

/-- The stored-uniform uploads never select a texture unit. -/
theorem texUnitBinds_uniformCalls :
    ∀ l : Registry, texUnitBinds (l.map fun e => uniformCall e.2.1 e.2.2) = [] := by
  intro l
  induction l with
  | nil => rfl
  | cons e rest ih =>
    rcases e with ⟨n, L, u⟩
    cases u <;> simpa [uniformCall, texUnitBinds_cons] using ih

/-- The units selected during a healthy render are exactly those of its
texture-binding loop. -/
theorem texUnitBinds_render (s : GLState) :
    texUnitBinds (render false (some s)).1 = texUnitBinds (bind_textures 0 s.textures) := by
  simp [render, apply_uniforms, texUnitBinds_append, texUnitBinds_cons,
    texUnitBinds_uniformCalls, texUnitBinds_nil]

/-- Name of the sampler uniform for source index 0. -/
theorem texName0 : "tex" ++ toString (0 : Nat) = "tex0" := rfl

/-- Name of the sampler uniform for source index 1. -/
theorem texName1 : "tex" ++ toString (1 : Nat) = "tex1" := rfl

/-- Name of the sampler uniform for source index 2. -/
theorem texName2 : "tex" ++ toString (2 : Nat) = "tex2" := rfl

/-- C1 (amended): with three sources all decoding, activation binds samplers
tex0, tex1, tex2 to units 0, 1, 2.  When exactly the second source fails, the
state holds 2 handles which render-time binding puts on units 0 and 1, but
the shader_area activation does NOT renumber sampler indices: it writes
sampler tex0 := 0 and sampler tex2 := 2, preserving the index gap (so tex2
points at unit 2 where no surviving texture is bound at render time).  The
shaderarea pipeline, which filters failed decodes before its realize loop,
does renumber: it writes tex0 := 0 and tex1 := 1 for the two survivors. -/
theorem C1_sampler_indices (d : Driver) (sh p0 p1 p2 : String)
    (inits : List (String × Uniform))
    (h0 : d.decode p0 = true) (h2 : d.decode p2 = true)
    (l0 : 0 ≤ d.loc "tex0") (l1 : 0 ≤ d.loc "tex1") (l2 : 0 ≤ d.loc "tex2") :
    (d.decode p1 = true →
        samplerCalls (realize d false sh [p0, p1, p2] inits none).2
          = [(d.loc "tex0", 0), (d.loc "tex1", 1), (d.loc "tex2", 2)])
      ∧ (d.decode p1 = false →
          (∃ s : GLState,
            (realize d false sh [p0, p1, p2] inits none).1 = some s
              ∧ s.textures.length = 2
              ∧ texUnitBinds (render false (some s)).1 = [0, 1])
            ∧ samplerCalls (realize d false sh [p0, p1, p2] inits none).2
                = [(d.loc "tex0", 0), (d.loc "tex2", 2)]
            ∧ samplerCalls (shaderarea_pipeline_textures d [p0, p1, p2]).2
                = [(d.loc "tex0", 0), (d.loc "tex1", 1)]) := by
  constructor
  · intro hp1
    rw [samplerCalls_realize]
    simp [texture_loop, load_texture, h0, hp1, h2, texName0, texName1, texName2,
      l0, l1, l2, samplerCalls_cons, samplerCalls_nil, samplerCalls_append]
  · intro hp1
    have hTL : (texture_loop d 0 [p0, p1, p2]).1 = [1, 3] := by
      simp [texture_loop, load_texture, h0, hp1, h2, texName0, texName2, l0, l2]
    refine ⟨⟨⟨1, 1, [1, 3], (seed_uniforms d inits).1⟩, ?_, by rfl, ?_⟩, ?_, ?_⟩
    · simp [realize, link_program, hTL]
    · rw [texUnitBinds_render]
      show texUnitBinds (bind_textures 0 [1, 3]) = [0, 1]
      decide
    · rw [samplerCalls_realize]
      simp [texture_loop, load_texture, h0, hp1, h2, texName0, texName2, l0, l2,
        samplerCalls_cons, samplerCalls_nil, samplerCalls_append]
    · simp [shaderarea_pipeline_textures, List.filter_cons, h0, hp1, h2,
        texture_loop_s, texName0, texName1, l0, l1, samplerCalls_cons,
        samplerCalls_nil, samplerCalls_append]

/-- Counterexample for C1 as stated: on the concrete driver d0 (samplers
tex0, tex1, tex2 at locations 5, 6, 7; source "bad" fails to decode), an
activation over sources [a, bad, c] stores exactly 2 texture handles yet
writes sampler location 7 (tex2) with unit index 2 — so index gaps from
failed loads ARE preserved as sampler indices: the claimed renumbering
(every written sampler index below the surviving-texture count) is false. -/
theorem C1_counterexample :
    (realize d0 false "frag" ["a", "bad", "c"] [] none).1
        = some { program := 1, vao := 1, textures := [1, 3], uniforms := [] }
      ∧ samplerCalls (realize d0 false "frag" ["a", "bad", "c"] [] none).2 = [(5, 0), (7, 2)]
      ∧ ¬ (∀ e ∈ samplerCalls (realize d0 false "frag" ["a", "bad", "c"] [] none).2,
            e.2 < 2) := by
  decide

/-- Witness for C1: on the concrete driver d0, the all-decode run writes
samplers (5,0), (6,1), (7,2), and the shaderarea pipeline with the second
source failing writes the renumbered samplers (5,0), (6,1). -/
theorem C1_witness :
    samplerCalls (realize d0 false "frag" ["a", "b", "c"] [] none).2
        = [(d0.loc "tex0", 0), (d0.loc "tex1", 1), (d0.loc "tex2", 2)]
      ∧ samplerCalls (shaderarea_pipeline_textures d0 ["a", "bad", "c"]).2
        = [(d0.loc "tex0", 0), (d0.loc "tex1", 1)] :=
  ⟨(C1_sampler_indices d0 "frag" "a" "b" "c" [] (by decide) (by decide) (by decide)
      (by decide) (by decide)).1 (by decide),
   ((C1_sampler_indices d0 "frag" "a" "bad" "c" [] (by decide) (by decide) (by decide)
      (by decide) (by decide)).2 (by decide)).2.2⟩

/-- Looking up the just-inserted name finds the new value. -/
theorem lookupU_insertU_self (m : UMap) (n : String) (u : Uniform) :
    lookupU (insertU m n u) n = some u := by
  induction m with
  | nil => simp [insertU, lookupU]
  | cons p rest ih =>
    by_cases h : p.1 = n
    · simp [insertU, lookupU, h]
    · simp [insertU, lookupU, h, ih]

/-- Inserting under one name does not change lookups under another. -/
theorem lookupU_insertU_ne (m : UMap) {a n : String} (h : a ≠ n) (u : Uniform) :
    lookupU (insertU m a u) n = lookupU m n := by
  induction m with
  | nil => simp [insertU, lookupU, h]
  | cons p rest ih =>
    by_cases hp : p.1 = a
    · simp [insertU, lookupU, hp, h]
    · by_cases hn : p.1 = n
      · simp [insertU, lookupU, hp, hn, Ne.symm h]
      · simp [insertU, lookupU, hp, hn, ih]

/-- The parsed map never contains a name absent from the input entries. -/
theorem parse_entries_lookup_not_mem (n : String) :
    ∀ es : List (String × GVar), n ∉ es.map Prod.fst →
      lookupU (parse_uniforms_entries es).1 n = none := by
  intro es
  induction es with
  | nil => intro h; rfl
  | cons e rest ih =>
    intro h
    rcases e with ⟨m, g⟩
    simp only [List.map_cons, List.mem_cons, not_or] at h
    rcases hg : parse_entry g with _ | u
    · simp only [parse_uniforms_entries, hg]
      exact ih h.2
    · simp only [parse_uniforms_entries, hg]
      rw [lookupU_insertU_ne _ (fun hc => h.1 hc.symm) u]
      exact ih h.2

/-- A well-formed entry of a duplicate-free dictionary lands in the parsed
map under its own name with its converted value. -/
theorem parse_entries_lookup_ok :
    ∀ (es : List (String × GVar)) (n : String) (g : GVar) (u : Uniform),
      (n, g) ∈ es → (es.map Prod.fst).Nodup → parse_entry g = some u →
      lookupU (parse_uniforms_entries es).1 n = some u := by
  intro es
  induction es with
  | nil =>
    intro n g u h
    simp at h
  | cons e rest ih =>
    intro n g u hmem hnd hpe
    rcases e with ⟨m, g0⟩
    simp only [List.map_cons, List.nodup_cons] at hnd
    rcases List.mem_cons.mp hmem with hEq | hmem2
    · cases hEq
      simp only [parse_uniforms_entries, hpe]
      exact lookupU_insertU_self _ _ _
    · have hnm : m ≠ n := by
        intro hc
        subst hc
        exact hnd.1 (List.mem_map_of_mem Prod.fst hmem2)
      rcases hg0 : parse_entry g0 with _ | u0
      · simp only [parse_uniforms_entries, hg0]
        exact ih n g u hmem2 hnd.2 hpe
      · simp only [parse_uniforms_entries, hg0]
        rw [lookupU_insertU_ne _ hnm]
        exact ih n g u hmem2 hnd.2 hpe

/-- A malformed entry of a duplicate-free dictionary is absent from the
parsed map. -/
theorem parse_entries_lookup_bad :
    ∀ (es : List (String × GVar)) (n : String) (g : GVar),
      (n, g) ∈ es → (es.map Prod.fst).Nodup → parse_entry g = none →
      lookupU (parse_uniforms_entries es).1 n = none := by
  intro es
  induction es with
  | nil =>
    intro n g h
    simp at h
  | cons e rest ih =>
    intro n g hmem hnd hpe
    rcases e with ⟨m, g0⟩
    simp only [List.map_cons, List.nodup_cons] at hnd
    rcases List.mem_cons.mp hmem with hEq | hmem2
    · cases hEq
      simp only [parse_uniforms_entries, hpe]
      exact parse_entries_lookup_not_mem n rest hnd.1
    · have hnm : m ≠ n := by
        intro hc
        subst hc
        exact hnd.1 (List.mem_map_of_mem Prod.fst hmem2)
      rcases hg0 : parse_entry g0 with _ | u0
      · simp only [parse_uniforms_entries, hg0]
        exact ih n g hmem2 hnd.2 hpe
      · simp only [parse_uniforms_entries, hg0]
        rw [lookupU_insertU_ne _ hnm]
        exact ih n g hmem2 hnd.2 hpe

/-- The GVariant parser logs exactly one line per malformed entry. -/
theorem parse_entries_log_count :
    ∀ es : List (String × GVar),
      (parse_uniforms_entries es).2.length
        = es.countP (fun e => (parse_entry e.2).isNone) := by
  intro es
  induction es with
  | nil => rfl
  | cons e rest ih =>
    rcases e with ⟨m, g⟩
    rcases hg : parse_entry g with _ | u <;>
      simp [parse_uniforms_entries, hg, List.countP_cons, ih]

/-- The spec-string parser logs exactly one line per rejected piece. -/
theorem parse_spec_log_count (pn : String → Option Rat) :
    ∀ ss : List String,
      (parse_spec_entries pn ss).2.length
        = ss.countP (fun s => isBadR (parse_one pn s)) := by
  intro ss
  induction ss with
  | nil => rfl
  | cons s rest ih =>
    cases hr : parse_one pn s <;>
      simp [parse_spec_entries, hr, isBadR, List.countP_cons, ih]

/-- C8 (amended): the GVariant parser rejects each malformed entry (wrong
arity or unsupported type) individually with a log line while accepting the
well-formed entries of the same dictionary, and never fails as a whole; the
string-spec parser also rejects malformed pieces and unknown type tags
individually with a log line, BUT it does not reject wrong vector arity: a
declared v3 whose value list has only two parsed components is accepted with
the missing component silently padded to 0. -/
theorem C8_uniform_map_validation :
    (∀ es : List (String × GVar),
        (parse_uniforms (some es)).2.length
          = es.countP (fun e => (parse_entry e.2).isNone))
      ∧ (∀ (es : List (String × GVar)) (n : String) (g : GVar) (u : Uniform),
          (n, g) ∈ es → (es.map Prod.fst).Nodup → parse_entry g = some u →
          lookupU (parse_uniforms (some es)).1 n = some u)
      ∧ (∀ (es : List (String × GVar)) (n : String) (g : GVar),
          (n, g) ∈ es → (es.map Prod.fst).Nodup → parse_entry g = none →
          lookupU (parse_uniforms (some es)).1 n = none)
      ∧ (∀ (pn : String → Option Rat) (spec : String),
          (parse_uniform_spec pn spec).2.length
            = (splitChar ';' spec).countP (fun s => isBadR (parse_one pn s)))
      ∧ (∀ (pn : String → Option Rat) (raw n vstr : String) (a b : Rat),
          trimStr raw ≠ "" → splitChar ':' (trimStr raw) = [n, "v3", vstr] →
          parse_num_list pn vstr = [a, b] →
          parse_one pn raw = SpecResult.ok n (Uniform.Vec3 a b 0))
      ∧ (∀ (pn : String → Option Rat) (raw n t vstr : String),
          trimStr raw ≠ "" → splitChar ':' (trimStr raw) = [n, t, vstr] →
          t ≠ "f" → t ≠ "v2" → t ≠ "v3" → t ≠ "v4" → t ≠ "i" →
          parse_one pn raw = SpecResult.bad ("Unknown uniform type: " ++ t)) := by
  refine ⟨parse_entries_log_count,
    fun es n g u => parse_entries_lookup_ok es n g u,
    fun es n g => parse_entries_lookup_bad es n g,
    fun pn spec => parse_spec_log_count pn (splitChar ';' spec), ?_, ?_⟩
  · intro pn raw n vstr a b hne hsplit hvals
    simp [parse_one, hne, hsplit, hvals]
  · intro pn raw n t vstr hne hsplit hf h2 h3 h4 hi
    simp [parse_one, hne, hsplit, hf, h2, h3, h4, hi]

/-- Counterexample for C8 as stated: the string-spec parser accepts the
wrong-arity entry "x:v3:1,2" (two components declared as a vec3) without any
warning, padding the missing component to 0 instead of rejecting it. -/
theorem C8_counterexample :
    parse_uniform_spec pn0 "x:v3:1,2" = ([("x", Uniform.Vec3 1 2 0)], []) := by
  decide

/-- Witness for C8: concrete instances of the amended behaviors — a
well-formed f64 entry accepted next to a malformed one rejected, the padded
v3 acceptance, and an unknown tag rejection. -/
theorem C8_witness :
    lookupU (parse_uniforms (some [("a", GVar.f64 1), ("b", GVar.f64arr [1])])).1 "a"
        = some (Uniform.Float 1)
      ∧ lookupU (parse_uniforms (some [("a", GVar.f64 1), ("b", GVar.f64arr [1])])).1 "b"
        = none
      ∧ parse_one pn0 "x:v3:1,2" = SpecResult.ok "x" (Uniform.Vec3 1 2 0)
      ∧ parse_one pn0 "x:zz:1" = SpecResult.bad ("Unknown uniform type: " ++ "zz") :=
  ⟨C8_uniform_map_validation.2.1 [("a", GVar.f64 1), ("b", GVar.f64arr [1])] "a"
      (GVar.f64 1) (Uniform.Float 1) (by decide) (by decide) (by decide),
   C8_uniform_map_validation.2.2.1 [("a", GVar.f64 1), ("b", GVar.f64arr [1])] "b"
      (GVar.f64arr [1]) (by decide) (by decide) (by decide),
   C8_uniform_map_validation.2.2.2.2.1 pn0 "x:v3:1,2" "x" "1,2" 1 2 (by decide)
      (by decide) (by decide),
   C8_uniform_map_validation.2.2.2.2.2 pn0 "x:zz:1" "x" "zz" "1" (by decide) (by decide)
      (by decide) (by decide) (by decide) (by decide) (by decide)⟩

end GtkGlShaders
